import Mathlib

/-!
Shallow embedding of the wazuh filter-helper compilers
(src/engine/source/builder/builders/opBuilderHelperFilter.cpp) and the json
path utilities (src/engine/source/json/json.hpp), with theorems checking the
natural-language specification against them.

Events are modelled through the capability interface the engine consumes
(lookup of a typed leaf value at a canonical path); the JSON document
implementation itself is an external collaborator.  The RE2 regex engine is
likewise external and is abstracted by an arbitrary partial-match function.
-/

/-- Value of a run of decimal digits, accumulator style; stops at the first
non-digit character (mirrors the digit loop of C `atoi` / `std::stoi`). -/
def digitsVal : List Char → Nat → Nat
  | [], acc => acc
  | c :: cs, acc =>
    if c.isDigit then digitsVal cs (acc * 10 + (c.toNat - '0'.toNat)) else acc

/-- Model of C `atoi` (used by opBuilderHelperStringEqN for the count token):
skips leading whitespace, takes an optional sign, then leading digits; a
string with no leading integer yields 0 and never fails. -/
def atoi (s : String) : Int :=
  let l := s.data.dropWhile Char.isWhitespace
  match l with
  | '-' :: rest => -(digitsVal rest 0 : Int)
  | '+' :: rest => (digitsVal rest 0 : Int)
  | _ => (digitsVal l 0 : Int)

/-- Model of `std::stoi` (used by the i_* builders for the literal token):
like atoi but throws (`none`) when no digit is consumed or when the value
does not fit a 32-bit signed int (std::out_of_range). -/
def stoi? (s : String) : Option Int :=
  let l := s.data.dropWhile Char.isWhitespace
  let signed : Int × List Char :=
    match l with
    | '-' :: rest => (-1, rest)
    | '+' :: rest => (1, rest)
    | _ => (1, l)
  match signed.2 with
  | [] => none
  | c :: _ =>
    if c.isDigit then
      let v : Int := signed.1 * (digitsVal signed.2 0 : Int)
      if -2147483648 ≤ v ∧ v ≤ 2147483647 then some v else none
    else none

/-- Split a character list at every occurrence of `c`, keeping every empty
piece (a '/'-split with no escaping and no empty-token suppression). -/
def splitAllChars (c : Char) : List Char → List (List Char)
  | [] => [[]]
  | x :: xs =>
    if x = c then [] :: splitAllChars c xs
    else
      match splitAllChars c xs with
      | [] => [[x]]
      | y :: ys => (x :: y) :: ys

/-- String split on a delimiter keeping every empty token.  This is the
tokeniser exactly as the specification words it ("splitting on `/` with no
escaping and no empty-token suppression"). -/
def splitAll (s : String) (c : Char) : List String :=
  (splitAllChars c s.data).map (fun l => ⟨l⟩)

/-- Modelled from the spec: `utils::string::split` (utils/stringUtils.hpp is
not under src/).  The spec's tokeniser section claims no empty-token
suppression, but the in-repository test
opBuilderHelperRegexMatch.NotEnoughArgumentsError asserts that the spec
string "+r_match/" fails the arity check (throws std::invalid_argument),
which forces the split to drop an empty trailing remainder: the split walks
the string pushing every piece before a delimiter (empty pieces included)
and pushes the final remainder only when it is non-empty. -/
def split (s : String) (c : Char) : List String :=
  let parts := splitAll s c
  if parts.getLast? = some "" then parts.dropLast else parts

/-- First-byte test: C++ `s[0] == c` (reads the terminating NUL, never equal
to the anchors or '/' used here, when `s` is empty) and `s.front() == c`. -/
def firstByteIs (s : String) (c : Char) : Bool :=
  s.data.head? = some c

/-- Model of `std::replace(begin, end, a, b)` over the character list. -/
def replaceChars (a b : Char) : List Char → List Char
  | [] => []
  | c :: cs => (if c = a then b else c) :: replaceChars a b cs

/-- `json::formatJsonPath` (json.hpp): prepend '/' when the first byte is
not '/', then replace every '.' byte by '/'.  (For the empty string,
`formatedPath.front()` reads the terminating NUL, which is not '/', so '/'
is prepended.) -/
def formatJsonPath (path : String) : String :=
  let formatedPath := if firstByteIs path '/' then path else "/" ++ path
  ⟨replaceChars '.' '/' formatedPath.data⟩

/-- Restated from the specification's words, for comparison with
`formatJsonPath`: "if the first byte is not /, prepend /; then replace
every . byte with /.  No other transformation." -/
def formatJsonPathSpec (path : String) : String :=
  let withRoot := if firstByteIs path '/' then path else "/" ++ path
  String.map (fun c => if c = '.' then '/' else c) withRoot

/-- Leaf view of a rapidjson value as the comparators observe it:
`intNum n` is a JSON number written as an integer literal, `floatNum` a
non-integral JSON number (its value is never read by these operators). -/
inductive JsonValue where
  | null
  | boolean (b : Bool)
  | str (s : String)
  | intNum (n : Int)
  | floatNum
  | obj
  | arr
deriving DecidableEq

/-- Event capability the predicates consume: a fallible lookup of the leaf
value at a canonical path (`Document::get` throwing / returning the value,
collapsed to an `Option`). -/
abbrev Event := List (String × JsonValue)

/-- Lookup of the value stored at a canonical path. -/
def Event.lookup : Event → String → Option JsonValue
  | [], _ => none
  | (k, v) :: rest, key => if k = key then some v else Event.lookup rest key

/-- rapidjson `IsString`. -/
def JsonValue.isString : JsonValue → Bool
  | JsonValue.str _ => true
  | _ => false

/-- rapidjson `IsInt`: true only when the number is an integer representable
in a 32-bit signed int (rapidjson sets the kInt flag for integer literals in
[-2^31, 2^31-1]; larger integers carry only the kInt64/kUint64 flags and
non-integral numbers only kDouble). -/
def JsonValue.isInt : JsonValue → Bool
  | JsonValue.intNum n => decide (-2147483648 ≤ n) && decide (n ≤ 2147483647)
  | _ => false

/-- rapidjson `GetInt` (only ever called after `IsInt`). -/
def JsonValue.getInt : JsonValue → Int
  | JsonValue.intNum n => n
  | _ => 0

/-- Bytewise-lexicographic order on character lists (C++ `std::string`
`operator<`). -/
def strLtList : List Char → List Char → Bool
  | [], [] => false
  | [], _ :: _ => true
  | _ :: _, [] => false
  | a :: as, b :: bs =>
    if a.toNat < b.toNat then true
    else if b.toNat < a.toNat then false
    else strLtList as bs

/-- C++ `std::string` `operator<`. -/
def strLt (a b : String) : Bool := strLtList a.data b.data

/-- The operator-tag switch of opBuilderHelperStringComparison: the six
recognised char tags, with the default branch throwing
`std::invalid_argument("Invalid operator: ...")` modelled as an error. -/
def applyStrOp (op : Char) (a b : String) : Except String Bool :=
  if op = '=' then Except.ok (a == b)
  else if op = '!' then Except.ok (!(a == b))
  else if op = '>' then Except.ok (strLt b a)
  else if op = 'g' then Except.ok (!(strLt a b))
  else if op = '<' then Except.ok (strLt a b)
  else if op = 'l' then Except.ok (!(strLt b a))
  else Except.error ("Invalid operator: '" ++ ⟨[op]⟩ ++ "' ")

/-- The operator-tag switch of opBuilderHelperIntComparison, over the
values `GetInt` returned. -/
def applyIntOp (op : Char) (a b : Int) : Except String Bool :=
  if op = '=' then Except.ok (decide (a = b))
  else if op = '!' then Except.ok (decide (a ≠ b))
  else if op = '>' then Except.ok (decide (a > b))
  else if op = 'g' then Except.ok (decide (a ≥ b))
  else if op = '<' then Except.ok (decide (a < b))
  else if op = 'l' then Except.ok (decide (a ≤ b))
  else Except.error ("Invalid operator: '" ++ ⟨[op]⟩ ++ "' ")

/-- The two trace labels a helper pre-formats at build time. -/
structure TraceLabels where
  success : String
  failure : String
deriving DecidableEq

/-- `base::Document::str()` of the one-entry mapping \x7bname: rawValue\x7d
rendered as compact JSON (names used by these claims need no escaping). -/
def docStr (name rawValue : String) : String :=
  "\x7b\"" ++ name ++ "\":\"" ++ rawValue ++ "\"\x7d"

/-- fmt::format of SUCCESS_TRACE_MSG / FAILURE_TRACE_MSG with the compact
JSON of the definition. -/
def mkLabels (name rawValue : String) : TraceLabels :=
  { success := docStr name rawValue ++ " Condition Success."
    failure := docStr name rawValue ++ " Condition Failure." }

/-- Result of `getCompOpParameter`: target field plus literal XOR reference. -/
structure CompOpParams where
  field : String
  refValue : Option String
  value : Option String
deriving DecidableEq

/-- `getCompOpParameter`: normalise the key, split the raw value on '/',
require exactly two tokens, classify the second by its first byte against
REFERENCE_ANCHOR (syntax.hpp is not under src/; the spec names '$' as the
reference anchor). -/
def getCompOpParameter (name rawValue : String) : Except String CompOpParams :=
  let field := formatJsonPath name
  match split rawValue '/' with
  | [_, p1] =>
    if firstByteIs p1 '$' then
      Except.ok { field, refValue := some (formatJsonPath (p1.drop 1)), value := none }
    else
      Except.ok { field, refValue := none, value := some p1 }
  | _ => Except.error "Invalid number of parameters"

/-- Compiled state of a 2-arity string predicate. -/
structure StrPredData where
  key : String
  op : Char
  refValue : Option String
  value : Option String
  labels : TraceLabels
deriving DecidableEq

/-- `opBuilderHelperStringComparison`: fetch the field (a throwing get is
caught and collapses to false), require a string, resolve the reference the
same way when present, then dispatch on the operator tag.  Reaching
`value.value()` with neither a literal nor a resolved reference throws
std::bad_optional_access, modelled as an error. -/
def stringComparison (key : String) (op : Char) (e : Event)
    (refValue : Option String) (value : Option String) : Except String Bool :=
  match Event.lookup e key with
  | none => Except.ok false
  | some fieldToCompare =>
    match fieldToCompare with
    | JsonValue.str a =>
      match refValue with
      | some r =>
        match Event.lookup e r with
        | none => Except.ok false
        | some refValueToCheck =>
          match refValueToCheck with
          | JsonValue.str b => applyStrOp op a b
          | _ => Except.ok false
      | none =>
        match value with
        | some b => applyStrOp op a b
        | none => Except.error "bad_optional_access"
    | _ => Except.ok false

/-- The runtime lambda every 2-arity string builder returns: run the
comparison, emit exactly one of the two labels on the non-throwing paths. -/
def strCompareRun (d : StrPredData) (e : Event) : Except String (Bool × List String) :=
  match stringComparison d.key d.op e d.refValue d.value with
  | Except.ok true => Except.ok (true, [d.labels.success])
  | Except.ok false => Except.ok (false, [d.labels.failure])
  | Except.error m => Except.error m

/-- `opBuilderHelperStringEq` (key: +s_eq/value). -/
def opBuilderHelperStringEq (name rawValue : String) : Except String StrPredData :=
  match getCompOpParameter name rawValue with
  | Except.error m => Except.error m
  | Except.ok p =>
    Except.ok { key := p.field, op := '=', refValue := p.refValue, value := p.value,
                labels := mkLabels name rawValue }

/-- `opBuilderHelperStringNE` (key: +s_ne/value). -/
def opBuilderHelperStringNE (name rawValue : String) : Except String StrPredData :=
  match getCompOpParameter name rawValue with
  | Except.error m => Except.error m
  | Except.ok p =>
    Except.ok { key := p.field, op := '!', refValue := p.refValue, value := p.value,
                labels := mkLabels name rawValue }

/-- `opBuilderHelperStringGT` (key: +s_gt/value). -/
def opBuilderHelperStringGT (name rawValue : String) : Except String StrPredData :=
  match getCompOpParameter name rawValue with
  | Except.error m => Except.error m
  | Except.ok p =>
    Except.ok { key := p.field, op := '>', refValue := p.refValue, value := p.value,
                labels := mkLabels name rawValue }

/-- `opBuilderHelperStringGE` (key: +s_ge/value). -/
def opBuilderHelperStringGE (name rawValue : String) : Except String StrPredData :=
  match getCompOpParameter name rawValue with
  | Except.error m => Except.error m
  | Except.ok p =>
    Except.ok { key := p.field, op := 'g', refValue := p.refValue, value := p.value,
                labels := mkLabels name rawValue }

/-- `opBuilderHelperStringLT` (key: +s_lt/value). -/
def opBuilderHelperStringLT (name rawValue : String) : Except String StrPredData :=
  match getCompOpParameter name rawValue with
  | Except.error m => Except.error m
  | Except.ok p =>
    Except.ok { key := p.field, op := '<', refValue := p.refValue, value := p.value,
                labels := mkLabels name rawValue }

/-- `opBuilderHelperStringLE` (key: +s_le/value). -/
def opBuilderHelperStringLE (name rawValue : String) : Except String StrPredData :=
  match getCompOpParameter name rawValue with
  | Except.error m => Except.error m
  | Except.ok p =>
    Except.ok { key := p.field, op := 'l', refValue := p.refValue, value := p.value,
                labels := mkLabels name rawValue }

/-- Compiled state of a 2-arity integer predicate (the literal already
parsed by std::stoi at build time). -/
structure IntPredData where
  field : String
  op : Char
  refValue : Option String
  value : Option Int
  labels : TraceLabels
deriving DecidableEq

/-- `opBuilderHelperIntComparison`: fetch the field (a throwing get is
caught and collapses to false), require IsInt, resolve the reference the
same way when present, then dispatch on the operator tag. -/
def intComparison (field : String) (op : Char) (e : Event)
    (refValue : Option String) (value : Option Int) : Except String Bool :=
  match Event.lookup e field with
  | none => Except.ok false
  | some fieldValue =>
    if fieldValue.isInt then
      match refValue with
      | some r =>
        match Event.lookup e r with
        | none => Except.ok false
        | some refValueToCheck =>
          if refValueToCheck.isInt then
            applyIntOp op fieldValue.getInt refValueToCheck.getInt
          else Except.ok false
      | none =>
        match value with
        | some v => applyIntOp op fieldValue.getInt v
        | none => Except.error "bad_optional_access"
    else Except.ok false

/-- The runtime lambda every i_* builder returns. -/
def intCompareRun (d : IntPredData) (e : Event) : Except String (Bool × List String) :=
  match intComparison d.field d.op e d.refValue d.value with
  | Except.ok true => Except.ok (true, [d.labels.success])
  | Except.ok false => Except.ok (false, [d.labels.failure])
  | Except.error m => Except.error m

/-- The shared `std::stoi` line of the i_* builders: parse the literal when
present; a parse failure throws and aborts the build. -/
def intLiteralOf (valuestr : Option String) : Except String (Option Int) :=
  match valuestr with
  | some vs =>
    match stoi? vs with
    | some n => Except.ok (some n)
    | none => Except.error "stoi"
  | none => Except.ok none

/-- `opBuilderHelperIntEqual` (field: +i_eq/int or $ref). -/
def opBuilderHelperIntEqual (name rawValue : String) : Except String IntPredData :=
  match getCompOpParameter name rawValue with
  | Except.error m => Except.error m
  | Except.ok p =>
    match intLiteralOf p.value with
    | Except.error m => Except.error m
    | Except.ok value =>
      Except.ok { field := p.field, op := '=', refValue := p.refValue, value,
                  labels := mkLabels name rawValue }

/-- `opBuilderHelperIntNotEqual` (field: +i_ne/int or $ref). -/
def opBuilderHelperIntNotEqual (name rawValue : String) : Except String IntPredData :=
  match getCompOpParameter name rawValue with
  | Except.error m => Except.error m
  | Except.ok p =>
    match intLiteralOf p.value with
    | Except.error m => Except.error m
    | Except.ok value =>
      Except.ok { field := p.field, op := '!', refValue := p.refValue, value,
                  labels := mkLabels name rawValue }

/-- `opBuilderHelperIntLessThan` (field: +i_lt/int or $ref). -/
def opBuilderHelperIntLessThan (name rawValue : String) : Except String IntPredData :=
  match getCompOpParameter name rawValue with
  | Except.error m => Except.error m
  | Except.ok p =>
    match intLiteralOf p.value with
    | Except.error m => Except.error m
    | Except.ok value =>
      Except.ok { field := p.field, op := '<', refValue := p.refValue, value,
                  labels := mkLabels name rawValue }

/-- `opBuilderHelperIntLessThanEqual` (field: +i_le/int or $ref). -/
def opBuilderHelperIntLessThanEqual (name rawValue : String) : Except String IntPredData :=
  match getCompOpParameter name rawValue with
  | Except.error m => Except.error m
  | Except.ok p =>
    match intLiteralOf p.value with
    | Except.error m => Except.error m
    | Except.ok value =>
      Except.ok { field := p.field, op := 'l', refValue := p.refValue, value,
                  labels := mkLabels name rawValue }

/-- `opBuilderHelperIntGreaterThan` (field: +i_gt/int or $ref). -/
def opBuilderHelperIntGreaterThan (name rawValue : String) : Except String IntPredData :=
  match getCompOpParameter name rawValue with
  | Except.error m => Except.error m
  | Except.ok p =>
    match intLiteralOf p.value with
    | Except.error m => Except.error m
    | Except.ok value =>
      Except.ok { field := p.field, op := '>', refValue := p.refValue, value,
                  labels := mkLabels name rawValue }

/-- `opBuilderHelperIntGreaterThanEqual` (field: +i_ge/int or $ref). -/
def opBuilderHelperIntGreaterThanEqual (name rawValue : String) : Except String IntPredData :=
  match getCompOpParameter name rawValue with
  | Except.error m => Except.error m
  | Except.ok p =>
    match intLiteralOf p.value with
    | Except.error m => Except.error m
    | Except.ok value =>
      Except.ok { field := p.field, op := 'g', refValue := p.refValue, value,
                  labels := mkLabels name rawValue }

/-- Compiled state of an s_eq_n predicate: the count already parsed by
`atoi`, the third token kept verbatim. -/
structure SEqNPredData where
  key : String
  n : Int
  parameter : String
  labels : TraceLabels
deriving DecidableEq

/-- `opBuilderHelperStringEqN` build phase (key: +s_eq_n/n_chars/s2):
normalise the key, split, require three tokens, parse the count with `atoi`
(which cannot fail), keep the third token. -/
def opBuilderHelperStringEqN (name rawValue : String) : Except String SEqNPredData :=
  let key := formatJsonPath name
  match split rawValue '/' with
  | [_, p1, p2] =>
    Except.ok { key, n := atoi p1, parameter := p2, labels := mkLabels name rawValue }
  | _ => Except.error "Invalid number of parameters for s_eq_n operator (3 expected)."

/-- C++ `s.substr(0, n)` where `n` is an int implicitly converted to
size_t: a negative count wraps to a huge size and yields the whole string. -/
def substrN (s : String) (n : Int) : String :=
  if n < 0 then s else ⟨s.data.take n.toNat⟩

/-- The runtime lambda of s_eq_n: fetch the field string and the right-hand
string (reference resolved through the same event), compare
`substr(0,n) == substr(0,n)`, trace and return.  A throwing lookup is
caught and traces the failure label with the exception cause appended
(modelled by a fixed suffix; no claim reads the cause).  `GetString()` on a
present non-string value is an unchecked rapidjson assertion in the source
and is routed to the same catch path here; no claim depends on that case. -/
def sEqNRun (d : SEqNPredData) (e : Event) : Bool × List String :=
  match Event.lookup e d.key with
  | some (JsonValue.str sourceString) =>
    match (if firstByteIs d.parameter '$' then
             (match Event.lookup e (formatJsonPath (d.parameter.drop 1)) with
              | some (JsonValue.str s) => some s
              | _ => none)
           else some d.parameter) with
    | some s2 =>
      if substrN sourceString d.n == substrN s2 d.n then
        (true, [d.labels.success])
      else
        (false, [d.labels.failure])
    | none => (false, [d.labels.failure ++ ": exception"])
  | _ => (false, [d.labels.failure ++ ": exception"])

/-- Compiled state of an r_match predicate: the target field and the
compiled RE2 automaton, abstracted as its partial-match function (RE2 is an
external collaborator).  The builder receives a TracerFn but stores no
trace labels: it never uses the tracer. -/
structure RegexPredData where
  field : String
  pattern : String

/-- `opBuilderHelperRegexMatch` build phase (field: +r_match/regexp):
normalise the field, split, require two tokens (else
std::invalid_argument), compile the regex eagerly (a compile failure,
`reOk` false, throws std::runtime_error). -/
def opBuilderHelperRegexMatch (name rawValue : String) (reOk : String → Bool) :
    Except String RegexPredData :=
  let field := formatJsonPath name
  match split rawValue '/' with
  | [_, p1] =>
    if reOk p1 then Except.ok { field, pattern := p1 }
    else Except.error ("Error compiling regex '" ++ p1 ++ "'. ")
  | _ => Except.error "Wrong number of arguments passed"

/-- The runtime lambda of r_match: fetch the field (a throwing get is
caught), require a string, return RE2::PartialMatch — and never call the
tracer: every return path emits zero trace lines. -/
def regexMatchRun (d : RegexPredData) (reFind : String → String → Bool)
    (e : Event) : Bool × List String :=
  match Event.lookup e d.field with
  | none => (false, [])
  | some fieldStr =>
    match fieldStr with
    | JsonValue.str s => (reFind d.pattern s, [])
    | _ => (false, [])

/-- Compiled state of an r_not_match predicate (this builder does
pre-format the two trace labels). -/
structure RegexNotPredData where
  field : String
  pattern : String
  labels : TraceLabels

/-- `opBuilderHelperRegexNotMatch` build phase (field: +r_not_match/regexp). -/
def opBuilderHelperRegexNotMatch (name rawValue : String) (reOk : String → Bool) :
    Except String RegexNotPredData :=
  let field := formatJsonPath name
  match split rawValue '/' with
  | [_, p1] =>
    if reOk p1 then
      Except.ok { field, pattern := p1, labels := mkLabels name rawValue }
    else Except.error ("Error compiling regex '" ++ p1 ++ "'. ")
  | _ => Except.error "Invalid number of parameters"

/-- The runtime lambda of r_not_match: true with the success label iff the
field is present, is a string and RE2::PartialMatch finds no match in it;
a missing field (caught get), a non-string value and a found match all
return false with the failure label. -/
def regexNotMatchRun (d : RegexNotPredData) (reFind : String → String → Bool)
    (e : Event) : Bool × List String :=
  match Event.lookup e d.field with
  | none => (false, [d.labels.failure])
  | some fieldStr =>
    match fieldStr with
    | JsonValue.str s =>
      if !(reFind d.pattern s) then (true, [d.labels.success])
      else (false, [d.labels.failure])
    | _ => (false, [d.labels.failure])

/-- Modelled from the spec: `utils::ip::IPv4ToUInt` (utils/ipUtils.hpp is
not under src/).  "Parses subject as dotted-quad IPv4 (reject
non-four-octet, any octet > 255), converts to u32."  One octet: a
non-empty all-digit token of value at most 255. -/
def parseOctet (s : String) : Option Nat :=
  match s.data with
  | [] => none
  | l =>
    if l.all Char.isDigit then
      let v := digitsVal l 0
      if v ≤ 255 then some v else none
    else none

/-- Modelled from the spec: dotted-quad IPv4 to u32 (big-endian octet
composition). -/
def IPv4ToUInt (s : String) : Option Nat :=
  match splitAll s '.' with
  | [a, b, c, d] =>
    match parseOctet a, parseOctet b, parseOctet c, parseOctet d with
    | some va, some vb, some vc, some vd =>
      some (((va * 256 + vb) * 256 + vc) * 256 + vd)
    | _, _, _, _ => none
  | _ => none

/-- A non-empty all-digit decimal token. -/
def parseDecNat (s : String) : Option Nat :=
  match s.data with
  | [] => none
  | l => if l.all Char.isDigit then some (digitsVal l 0) else none

/-- Modelled from the spec: `utils::ip::IPv4MaskUInt` (utils/ipUtils.hpp is
not under src/).  "The third token is either a dotted-quad netmask or a
decimal prefix length": a dotted quad is taken as the mask itself, a
decimal prefix n of at most 32 yields the mask with the top n bits set. -/
def IPv4MaskUInt (s : String) : Option Nat :=
  match IPv4ToUInt s with
  | some m => some m
  | none =>
    match parseDecNat s with
    | some n => if n ≤ 32 then some (2 ^ 32 - 2 ^ (32 - n)) else none
    | none => none

/-- Compiled state of an ip_cidr predicate: the inclusive u32 bounds. -/
structure CidrPredData where
  field : String
  netLower : Nat
  netUpper : Nat
  labels : TraceLabels
deriving DecidableEq

/-- `opBuilderHelperIPCIDR` build phase (path: +ip_cidr/network/mask-or-
prefix): normalise the field, split, require three tokens, reject empty
tokens (the source's two emptiness messages are swapped; preserved
verbatim), parse network and mask eagerly (a parse failure throws), then
lower = network AND mask, upper = lower OR (NOT mask) over u32.  (The
source's catch branches build their messages from the yet-unset u32 by
pointer arithmetic — the spec notes this as a latent bug; the messages are
irrelevant here.) -/
def opBuilderHelperIPCIDR (name rawValue : String) : Except String CidrPredData :=
  let field := formatJsonPath name
  match split rawValue '/' with
  | [_, p1, p2] =>
    if p2 = "" then Except.error "The network can't be empty"
    else if p1 = "" then Except.error "The cidr can't be empty"
    else
      match IPv4ToUInt p1 with
      | none => Except.error "Invalid IPv4 address: "
      | some network =>
        match IPv4MaskUInt p2 with
        | none => Except.error "Invalid IPv4 mask: "
        | some mask =>
          Except.ok { field,
                      netLower := network &&& mask,
                      netUpper := (network &&& mask) ||| (2 ^ 32 - 1 - mask),
                      labels := mkLabels name rawValue }
  | _ => Except.error "Invalid number of parameters"

/-- The runtime lambda of ip_cidr: fetch the field (a throwing get is
caught and traces the failure label), require a string, parse it as IPv4
(an unparseable subject traces the failure label), then test
lower <= ip <= upper, tracing accordingly. -/
def cidrRun (d : CidrPredData) (e : Event) : Bool × List String :=
  match Event.lookup e d.field with
  | none => (false, [d.labels.failure])
  | some fieldStr =>
    match fieldStr with
    | JsonValue.str s =>
      match IPv4ToUInt s with
      | none => (false, [d.labels.failure])
      | some ip =>
        if d.netLower ≤ ip ∧ ip ≤ d.netUpper then (true, [d.labels.success])
        else (false, [d.labels.failure])
    | _ => (false, [d.labels.failure])

theorem replaceChars_eq_map (a b : Char) (l : List Char) :
    replaceChars a b l = l.map (fun c => if c = a then b else c) := by
  induction l with
  | nil => rfl
  | cons c cs ih => simp [replaceChars, ih]

theorem replaceChars_idem (a b : Char) (hba : b ≠ a) (l : List Char) :
    replaceChars a b (replaceChars a b l) = replaceChars a b l := by
  induction l with
  | nil => rfl
  | cons c cs ih =>
    by_cases hc : c = a
    · simp [replaceChars, hc, hba, ih]
    · simp [replaceChars, hc, ih]

theorem data_formatJsonPath (p : String) :
    (formatJsonPath p).data =
      replaceChars '.' '/' (if firstByteIs p '/' then p.data else '/' :: p.data) := by
  unfold formatJsonPath
  by_cases h : firstByteIs p '/'
  · simp [h]
  · simp [h, String.data_append]

theorem firstByteIs_formatJsonPath (p : String) :
    firstByteIs (formatJsonPath p) '/' = true := by
  unfold firstByteIs
  rw [data_formatJsonPath]
  by_cases h : firstByteIs p '/'
  · simp only [h, if_pos]
    unfold firstByteIs at h
    match hd : p.data with
    | [] => rw [hd] at h; simp at h
    | c :: t =>
      rw [hd] at h
      simp at h
      simp [replaceChars, h]
  · simp only [h]
    simp [replaceChars]

/-- C7: for every input string p, the path normaliser produces exactly p
with '/' prepended when its first byte is not '/', then every '.' byte
replaced by '/', and performs no other transformation (the
specification-worded normaliser agrees with the source's everywhere); for
the empty input string it yields "/". -/
theorem formatJsonPath_matches_spec :
    (∀ p : String, formatJsonPath p = formatJsonPathSpec p) ∧ formatJsonPath "" = "/" := by
  constructor
  · intro p
    simp only [formatJsonPath, formatJsonPathSpec, String.map_eq, replaceChars_eq_map]
  · rfl

/-- C9: the path normaliser is idempotent:
normalise(normalise(p)) == normalise(p) for every input string p. -/
theorem formatJsonPath_idempotent :
    ∀ p : String, formatJsonPath (formatJsonPath p) = formatJsonPath p := by
  intro p
  have h1 := firstByteIs_formatJsonPath p
  apply String.ext
  rw [data_formatJsonPath (formatJsonPath p)]
  simp only [h1, if_pos]
  rw [data_formatJsonPath p]
  exact replaceChars_idem '.' '/' (by decide) _

theorem splitAllChars_no_delim (c : Char) (l : List Char) (h : ∀ x ∈ l, x ≠ c) :
    splitAllChars c l = [l] := by
  induction l with
  | nil => rfl
  | cons x xs ih =>
    have hx : x ≠ c := h x (by simp)
    have hrec : splitAllChars c xs = [xs] := ih (fun y hy => h y (by simp [hy]))
    simp [splitAllChars, hx, hrec]

theorem split_rmatch_concat (pat : String) (h : ∀ x ∈ pat.data, x ≠ '/') (hne : pat ≠ "") :
    split ("+r_match/" ++ pat) '/' = ["+r_match", pat] := by
  have hd : ("+r_match/" ++ pat).data =
      '+' :: 'r' :: '_' :: 'm' :: 'a' :: 't' :: 'c' :: 'h' :: '/' :: pat.data := by
    rw [String.data_append]
    rfl
  have hmk : (⟨pat.data⟩ : String) = pat := rfl
  have hone : splitAllChars '/' pat.data = [pat.data] := splitAllChars_no_delim '/' pat.data h
  unfold split splitAll
  rw [hd]
  simp only [splitAllChars, hone]
  norm_num
  simp [hmk, hne]

/-- C5 counterexample: tokenising "+r_match/" yields the single token
"+r_match" — the empty trailing token is suppressed — and compiling
r_match from it fails with the arity error instead of passing the arity
check as the claim states (this is exactly what the repository's own test
opBuilderHelperRegexMatch.NotEnoughArgumentsError asserts). -/
theorem tokenizer_trailing_empty_counterexample :
    split "+r_match/" '/' = ["+r_match"] ∧
    opBuilderHelperRegexMatch "field" "+r_match/" (fun _ => true) =
      Except.error "Wrong number of arguments passed" :=
  ⟨rfl, rfl⟩

/-- C5 (amended): tokenising splits on '/' with no escaping but suppresses
an empty trailing token; the token count is compared against the declared
arity and a mismatch fails the compile — hence "+r_match/" yields exactly
one token and fails the r_match arity check, while "+r_match/pat" for a
non-empty '/'-free pattern yields two tokens and compiles. -/
theorem tokenizer_arity_amended (name pat : String) (reOk : String → Bool)
    (hpat : ∀ x ∈ pat.data, x ≠ '/') (hne : pat ≠ "") (hok : reOk pat = true) :
    split "+r_match/" '/' = ["+r_match"] ∧
    (∃ msg, opBuilderHelperRegexMatch name "+r_match/" reOk = Except.error msg) ∧
    (∃ d, opBuilderHelperRegexMatch name ("+r_match/" ++ pat) reOk = Except.ok d ∧
      d.field = formatJsonPath name ∧ d.pattern = pat) := by
  refine ⟨rfl, ⟨"Wrong number of arguments passed", rfl⟩, ?_⟩
  refine ⟨⟨formatJsonPath name, pat⟩, ?_, rfl, rfl⟩
  simp only [opBuilderHelperRegexMatch]
  rw [split_rmatch_concat pat hpat hne]
  simp [hok]

/-- C5 amended-claim witness at a concrete pattern. -/
theorem tokenizer_arity_amended_witness :
    (∀ x ∈ "exp".data, x ≠ '/') ∧ "exp" ≠ "" ∧
    (split "+r_match/" '/' = ["+r_match"] ∧
     (∃ msg, opBuilderHelperRegexMatch "field" "+r_match/" (fun _ => true) = Except.error msg) ∧
     (∃ d, opBuilderHelperRegexMatch "field" ("+r_match/" ++ "exp") (fun _ => true) = Except.ok d ∧
       d.field = formatJsonPath "field" ∧ d.pattern = "exp")) :=
  ⟨by decide, by decide,
   tokenizer_arity_amended "field" "exp" (fun _ => true) (by decide) (by decide) rfl⟩

/-- C1 (code bug): every evaluation of an r_match predicate emits zero
trace lines — the builder receives a tracer and never calls it — where the
claim (and the spec's totality/trace-exclusivity invariants) require
exactly one line per evaluation; in particular the predicate successfully
compiled from field: +r_match/exp evaluated on an event whose field holds
"exp" returns true with an empty trace list instead of emitting the
success label. -/
theorem regexMatch_predicate_emits_no_trace :
    (∀ (d : RegexPredData) (reFind : String → String → Bool) (e : Event),
      (regexMatchRun d reFind e).2 = []) ∧
    (∃ d, opBuilderHelperRegexMatch "field" "+r_match/exp" (fun _ => true) = Except.ok d ∧
      regexMatchRun d (fun _ _ => true) [("/field", JsonValue.str "exp")] = (true, [])) := by
  constructor
  · intro d reFind e
    unfold regexMatchRun
    cases Event.lookup e d.field with
    | none => rfl
    | some v => cases v <;> rfl
  · exact ⟨⟨"/field", "exp"⟩, rfl, rfl⟩

/-- C8: an r_not_match predicate returns true iff the target field is
present, its value is a string and the regex finds no partial match in it;
when the field is missing or its value is not a string the predicate
returns false with the failure label (the operator is not a proxy for
field absence). -/
theorem regexNotMatch_semantics :
    ∀ (d : RegexNotPredData) (reFind : String → String → Bool) (e : Event),
      ((regexNotMatchRun d reFind e).1 = true ↔
        ∃ s, Event.lookup e d.field = some (JsonValue.str s) ∧ reFind d.pattern s = false) ∧
      ((∀ s, Event.lookup e d.field ≠ some (JsonValue.str s)) →
        regexNotMatchRun d reFind e = (false, [d.labels.failure])) := by
  intro d reFind e
  unfold regexNotMatchRun
  cases hL : Event.lookup e d.field with
  | none => simp
  | some v =>
    cases v with
    | str s =>
      constructor
      · by_cases hm : reFind d.pattern s <;> simp [hm]
      · intro hAbs
        exact absurd rfl (hAbs s)
    | null => simp
    | boolean b => simp
    | intNum n => simp
    | floatNum => simp
    | obj => simp
    | arr => simp

/-- C2 counterexample: building m: +s_eq_n/3/abcdef succeeds and evaluating
it on the event where m holds "ab" returns false with the failure label —
the claim demands true (prefix comparison of the overlap): the source
compares substr(0,3) of both sides, and "ab" differs from "abc" as a whole
string. -/
theorem sEqN_short_string_counterexample :
    ∃ d, opBuilderHelperStringEqN "m" "+s_eq_n/3/abcdef" = Except.ok d ∧
      sEqNRun d [("/m", JsonValue.str "ab")] = (false, [d.labels.failure]) :=
  ⟨⟨"/m", 3, "abcdef", mkLabels "m" "+s_eq_n/3/abcdef"⟩, rfl, rfl⟩

/-- Evaluation of an s_eq_n predicate whose right-hand token is a literal,
on an event where the target field holds string a: the substr(0,n)
comparison decides the result. -/
theorem sEqNRun_literal (d : SEqNPredData) (e : Event) (a : String)
    (hA : Event.lookup e d.key = some (JsonValue.str a))
    (hParam : firstByteIs d.parameter '$' = false) :
    (sEqNRun d e).1 = (substrN a d.n == substrN d.parameter d.n) := by
  unfold sEqNRun
  rw [hA, hParam]
  by_cases h : (substrN a d.n == substrN d.parameter d.n) = true <;> simp [h]

/-- C2 (amended): for a compiled s_eq_n predicate with count n >= 0, when
the target field resolves to string a and the right-hand side is the
literal b, the predicate returns true iff the first min(n, len(a)) bytes of
a equal the first min(n, len(b)) bytes of b AND those two lengths agree —
i.e. substr(0,n) of the two sides are equal as whole strings.  A string
shorter than n is therefore never prefix-equal to one of length at least n. -/
theorem sEqN_substr_semantics (d : SEqNPredData) (e : Event) (a : String)
    (hA : Event.lookup e d.key = some (JsonValue.str a))
    (hParam : firstByteIs d.parameter '$' = false)
    (hn : 0 ≤ d.n) :
    ((sEqNRun d e).1 = true ↔
      (min d.n.toNat a.length = min d.n.toNat d.parameter.length ∧
       a.data.take d.n.toNat = d.parameter.data.take d.n.toNat)) := by
  have hnn : ¬ d.n < 0 := by omega
  rw [sEqNRun_literal d e a hA hParam]
  simp only [substrN, if_neg hnn, beq_iff_eq, String.ext_iff]
  constructor
  · intro h
    refine ⟨?_, h⟩
    have := congrArg List.length h
    rw [List.length_take, List.length_take] at this
    exact this
  · exact And.right

/-- C2 amended-claim witness: the compiled +s_eq_n/3/abcdef predicate on an
event where m holds "abcxyz". -/
theorem sEqN_substr_semantics_witness :
    Event.lookup [("/m", JsonValue.str "abcxyz")] "/m" = some (JsonValue.str "abcxyz") ∧
    firstByteIs "abcdef" '$' = false ∧
    ((sEqNRun ⟨"/m", 3, "abcdef", mkLabels "m" "+s_eq_n/3/abcdef"⟩
        [("/m", JsonValue.str "abcxyz")]).1 = true ↔
      (min (Int.toNat 3) "abcxyz".length = min (Int.toNat 3) "abcdef".length ∧
       "abcxyz".data.take (Int.toNat 3) = "abcdef".data.take (Int.toNat 3))) :=
  ⟨rfl, rfl,
   sEqN_substr_semantics ⟨"/m", 3, "abcdef", mkLabels "m" "+s_eq_n/3/abcdef"⟩
     [("/m", JsonValue.str "abcxyz")] "abcxyz" rfl rfl (by decide)⟩

/-- C3 counterexample: the event value 2147483648 = 2^31 is a JSON number
exactly representable as i64, and the claim demands that i_gt/0 accept it
and return true (2^31 > 0); the compiled predicate instead rejects it as a
type mismatch (rapidjson IsInt is a 32-bit check) and returns false with
the failure label. -/
theorem intComparison_int64_counterexample :
    (∃ d, opBuilderHelperIntGreaterThan "a" "+i_gt/0" = Except.ok d ∧
      intCompareRun d [("/a", JsonValue.intNum 2147483648)] =
        Except.ok (false, [d.labels.failure])) ∧
    ((2147483648 : Int) > 0) :=
  ⟨⟨⟨"/a", '>', none, some 0, mkLabels "a" "+i_gt/0"⟩, rfl, rfl⟩, by decide⟩

/-- C3 (amended): the integer comparators compare 32-bit signed ints, not
i64: a target (or reference) value is accepted as correctly typed only when
it is an integral JSON number within [-2^31, 2^31-1] (rapidjson IsInt);
integral numbers outside that range are rejected as a type mismatch exactly
like non-integral numbers, and within range the signed comparison decides
the result. -/
theorem intComparison_int32_semantics (field : String) (op : Char) (e : Event) (a v : Int)
    (h : Event.lookup e field = some (JsonValue.intNum a)) :
    (intComparison field op e none (some v) =
      if -2147483648 ≤ a ∧ a ≤ 2147483647 then applyIntOp op a v else Except.ok false) ∧
    (∀ r b, Event.lookup e r = some (JsonValue.intNum b) →
      intComparison field op e (some r) none =
        if -2147483648 ≤ a ∧ a ≤ 2147483647 then
          (if -2147483648 ≤ b ∧ b ≤ 2147483647 then applyIntOp op a b else Except.ok false)
        else Except.ok false) := by
  constructor
  · by_cases ha : -2147483648 ≤ a ∧ a ≤ 2147483647
    · simp [intComparison, h, JsonValue.isInt, JsonValue.getInt, ha, ha.1, ha.2]
    · have hInt : (JsonValue.intNum a).isInt = false := by
        simp [JsonValue.isInt]
        omega
      simp [intComparison, h, hInt, ha]
  · intro r b hr
    by_cases ha : -2147483648 ≤ a ∧ a ≤ 2147483647
    · by_cases hb : -2147483648 ≤ b ∧ b ≤ 2147483647
      · simp [intComparison, h, hr, JsonValue.isInt, JsonValue.getInt,
              ha, ha.1, ha.2, hb, hb.1, hb.2]
      · have hIntB : (JsonValue.intNum b).isInt = false := by
          simp [JsonValue.isInt]
          omega
        simp [intComparison, h, hr, JsonValue.isInt, JsonValue.getInt,
              ha, ha.1, ha.2, hIntB, hb]
    · have hInt : (JsonValue.intNum a).isInt = false := by
        simp [JsonValue.isInt]
        omega
      simp [intComparison, h, hInt, ha]

/-- C3 amended-claim witness at a concrete in-range event. -/
theorem intComparison_int32_semantics_witness :
    Event.lookup [("/a", JsonValue.intNum 5), ("/b", JsonValue.intNum 3)] "/a" =
      some (JsonValue.intNum 5) ∧
    ((intComparison "/a" '>' [("/a", JsonValue.intNum 5), ("/b", JsonValue.intNum 3)]
        none (some 3) =
      if -2147483648 ≤ (5 : Int) ∧ (5 : Int) ≤ 2147483647 then applyIntOp '>' 5 3
      else Except.ok false) ∧
     (∀ r b, Event.lookup [("/a", JsonValue.intNum 5), ("/b", JsonValue.intNum 3)] r =
        some (JsonValue.intNum b) →
      intComparison "/a" '>' [("/a", JsonValue.intNum 5), ("/b", JsonValue.intNum 3)]
          (some r) none =
        if -2147483648 ≤ (5 : Int) ∧ (5 : Int) ≤ 2147483647 then
          (if -2147483648 ≤ b ∧ b ≤ 2147483647 then applyIntOp '>' 5 b else Except.ok false)
        else Except.ok false)) :=
  ⟨rfl, intComparison_int32_semantics "/a" '>'
    [("/a", JsonValue.intNum 5), ("/b", JsonValue.intNum 3)] 5 3 rfl⟩

/-- C6 counterexample: the count token "xyz" does not parse as an integer,
yet compiling m: +s_eq_n/xyz/abc succeeds — atoi silently returns 0 and a
predicate with n = 0 is produced, where the claim demands that the build
fail and no predicate be produced. -/
theorem sEqN_atoi_counterexample :
    ∃ d, opBuilderHelperStringEqN "m" "+s_eq_n/xyz/abc" = Except.ok d ∧ d.n = 0 :=
  ⟨⟨"/m", 0, "abc", mkLabels "m" "+s_eq_n/xyz/abc"⟩, rfl, rfl⟩

/-- C6 (amended): for the i_* operators an unparsable literal token
(std::stoi) does fail the build and no predicate is produced; s_eq_n's
count token is parsed with atoi, which cannot fail — an unparsable count
yields n = 0 and the build succeeds, producing a predicate. -/
theorem integer_parse_build_amended
    (nameI rawI nameS rawS opTokI opTokS lit count param : String)
    (hI : split rawI '/' = [opTokI, lit])
    (hlit : firstByteIs lit '$' = false)
    (hstoi : stoi? lit = none)
    (hS : split rawS '/' = [opTokS, count, param]) :
    (∃ msg, opBuilderHelperIntEqual nameI rawI = Except.error msg) ∧
    (∃ d, opBuilderHelperStringEqN nameS rawS = Except.ok d ∧
      d.n = atoi count ∧ d.parameter = param) := by
  constructor
  · refine ⟨"stoi", ?_⟩
    simp only [opBuilderHelperIntEqual, getCompOpParameter]
    rw [hI]
    simp [hlit, intLiteralOf, hstoi]
  · refine ⟨⟨formatJsonPath nameS, atoi count, param, mkLabels nameS rawS⟩, ?_, rfl, rfl⟩
    simp only [opBuilderHelperStringEqN]
    rw [hS]

/-- C6 amended-claim witness at concrete spec strings. -/
theorem integer_parse_build_amended_witness :
    split "+i_eq/xyz" '/' = ["+i_eq", "xyz"] ∧
    firstByteIs "xyz" '$' = false ∧
    stoi? "xyz" = none ∧
    split "+s_eq_n/xyz/abc" '/' = ["+s_eq_n", "xyz", "abc"] ∧
    ((∃ msg, opBuilderHelperIntEqual "a" "+i_eq/xyz" = Except.error msg) ∧
     (∃ d, opBuilderHelperStringEqN "m2" "+s_eq_n/xyz/abc" = Except.ok d ∧
       d.n = atoi "xyz" ∧ d.parameter = "abc")) :=
  ⟨rfl, rfl, rfl, rfl,
   integer_parse_build_amended "a" "+i_eq/xyz" "m2" "+s_eq_n/xyz/abc" "+i_eq" "+s_eq_n"
     "xyz" "xyz" "abc" rfl rfl rfl rfl⟩

theorem parseOctet_le (s : String) (v : Nat) (h : parseOctet s = some v) : v ≤ 255 := by
  unfold parseOctet at h
  split at h
  · simp at h
  · split at h
    · simp at h
      omega
    · simp at h

theorem IPv4ToUInt_lt (s : String) (v : Nat) (h : IPv4ToUInt s = some v) : v < 2 ^ 32 := by
  unfold IPv4ToUInt at h
  split at h
  · split at h
    · rename_i va vb vc vd ha hb hc hd
      have h1 := parseOctet_le _ _ ha
      have h2 := parseOctet_le _ _ hb
      have h3 := parseOctet_le _ _ hc
      have h4 := parseOctet_le _ _ hd
      have hv : ((va * 256 + vb) * 256 + vc) * 256 + vd = v := by
        simpa using h
      omega
    · simp at h
  · simp at h

theorem IPv4MaskUInt_lt (s : String) (m : Nat) (h : IPv4MaskUInt s = some m) : m < 2 ^ 32 := by
  unfold IPv4MaskUInt at h
  split at h
  · rename_i m' hm'
    have hmm : m' = m := by simpa using h
    exact hmm ▸ IPv4ToUInt_lt s m' hm'
  · split at h
    · rename_i n hn
      by_cases h32 : n ≤ 32
      · rw [if_pos h32] at h
        have hval : 2 ^ 32 - 2 ^ (32 - n) = m := by simpa using h
        have hp : 1 ≤ 2 ^ (32 - n) := Nat.one_le_two_pow
        omega
      · rw [if_neg h32] at h
        simp at h
    · simp at h

theorem cidrRun_eval (d : CidrPredData) (e : Event) (s : String) (v : Nat)
    (hL : Event.lookup e d.field = some (JsonValue.str s))
    (hP : IPv4ToUInt s = some v) :
    ((cidrRun d e).1 = true ↔ (d.netLower ≤ v ∧ v ≤ d.netUpper)) := by
  by_cases hc : d.netLower ≤ v ∧ v ≤ d.netUpper <;> simp [cidrRun, hL, hP, hc]

theorem cidrRun_unparseable (d : CidrPredData) (e : Event) (s : String)
    (hL : Event.lookup e d.field = some (JsonValue.str s))
    (hP : IPv4ToUInt s = none) :
    cidrRun d e = (false, [d.labels.failure]) := by
  simp [cidrRun, hL, hP]

/-- C4: an ip_cidr predicate compiled from network and mask-or-prefix
tokens holds lo = network AND mask and hi = lo OR (NOT mask) over u32; at
runtime it returns true iff the target field is a string parsing as a
dotted-quad IPv4 address whose u32 value v satisfies lo <= v <= hi; an
unparseable subject returns false with the failure label; prefix /0 admits
every IPv4 address and prefix /32 admits only the exact network address. -/
theorem ipCidr_bounds_and_runtime (name rawValue netTok maskTok : String)
    (network mask : Nat)
    (hsplit : split rawValue '/' = ["+ip_cidr", netTok, maskTok])
    (hN : IPv4ToUInt netTok = some network)
    (hM : IPv4MaskUInt maskTok = some mask) :
    ∃ d, opBuilderHelperIPCIDR name rawValue = Except.ok d ∧
      d.field = formatJsonPath name ∧
      d.netLower = network &&& mask ∧
      d.netUpper = (network &&& mask) ||| (2 ^ 32 - 1 - mask) ∧
      (∀ e s v, Event.lookup e d.field = some (JsonValue.str s) →
        IPv4ToUInt s = some v →
        ((cidrRun d e).1 = true ↔ (d.netLower ≤ v ∧ v ≤ d.netUpper))) ∧
      (∀ e s, Event.lookup e d.field = some (JsonValue.str s) →
        IPv4ToUInt s = none → cidrRun d e = (false, [d.labels.failure])) ∧
      (maskTok = "0" → d.netLower = 0 ∧ d.netUpper = 2 ^ 32 - 1 ∧
        (∀ e s v, Event.lookup e d.field = some (JsonValue.str s) →
          IPv4ToUInt s = some v → (cidrRun d e).1 = true)) ∧
      (maskTok = "32" → d.netLower = network ∧ d.netUpper = network ∧
        (∀ e s v, Event.lookup e d.field = some (JsonValue.str s) →
          IPv4ToUInt s = some v →
          ((cidrRun d e).1 = true ↔ v = network))) := by
  have hNet : netTok ≠ "" := by
    intro hEq
    rw [hEq, show IPv4ToUInt "" = none from rfl] at hN
    exact Option.noConfusion hN
  have hMaskTok : maskTok ≠ "" := by
    intro hEq
    rw [hEq, show IPv4MaskUInt "" = none from rfl] at hM
    exact Option.noConfusion hM
  refine ⟨⟨formatJsonPath name, network &&& mask,
           (network &&& mask) ||| (2 ^ 32 - 1 - mask), mkLabels name rawValue⟩,
          ?_, rfl, rfl, rfl, ?_, ?_, ?_, ?_⟩
  · simp only [opBuilderHelperIPCIDR]
    rw [hsplit]
    simp [hMaskTok, hNet, hN, hM]
  · intro e s v hL hP
    exact cidrRun_eval _ e s v hL hP
  · intro e s hL hP
    exact cidrRun_unparseable _ e s hL hP
  · intro h0
    subst h0
    have hm0 : mask = 0 := by
      have hval : IPv4MaskUInt "0" = some 0 := by decide
      rw [hval] at hM
      exact (Option.some.inj hM).symm
    subst hm0
    refine ⟨by simp, by simp, ?_⟩
    intro e s v hL hP
    have hv : v < 2 ^ 32 := IPv4ToUInt_lt s v hP
    rw [cidrRun_eval _ e s v hL hP]
    simp only [Nat.and_zero, Nat.zero_or, Nat.sub_zero]
    omega
  · intro h32
    subst h32
    have hm : mask = 4294967295 := by
      have hval : IPv4MaskUInt "32" = some 4294967295 := by decide
      rw [hval] at hM
      exact (Option.some.inj hM).symm
    subst hm
    have hNlt : network < 2 ^ 32 := IPv4ToUInt_lt netTok network hN
    have hAnd : network &&& 4294967295 = network := by
      have h1 : (4294967295 : Nat) = 2 ^ 32 - 1 := by norm_num
      rw [h1]
      exact Nat.and_pow_two_sub_one_of_lt_two_pow hNlt
    have hSub : 2 ^ 32 - 1 - 4294967295 = 0 := by norm_num
    have hUpper : (network &&& 4294967295) ||| (2 ^ 32 - 1 - 4294967295) = network := by
      rw [hAnd, hSub]
      exact Nat.or_zero network
    refine ⟨hAnd, hUpper, ?_⟩
    intro e s v hL hP
    rw [cidrRun_eval _ e s v hL hP]
    show (network &&& 4294967295 ≤ v ∧ v ≤ (network &&& 4294967295) ||| (2 ^ 32 - 1 - 4294967295)) ↔ v = network
    rw [hUpper, hAnd]
    omega

/-- C4 witness: the compiled src.ip: +ip_cidr/192.168.0.0/16 predicate,
with network 192.168.0.0 = 3232235520 and /16 mask 4294901760. -/
theorem ipCidr_bounds_and_runtime_witness :
    split "+ip_cidr/192.168.0.0/16" '/' = ["+ip_cidr", "192.168.0.0", "16"] ∧
    IPv4ToUInt "192.168.0.0" = some 3232235520 ∧
    IPv4MaskUInt "16" = some 4294901760 ∧
    (∃ d, opBuilderHelperIPCIDR "src.ip" "+ip_cidr/192.168.0.0/16" = Except.ok d ∧
      d.field = formatJsonPath "src.ip" ∧
      d.netLower = 3232235520 &&& 4294901760 ∧
      d.netUpper = (3232235520 &&& 4294901760) ||| (2 ^ 32 - 1 - 4294901760) ∧
      (∀ e s v, Event.lookup e d.field = some (JsonValue.str s) →
        IPv4ToUInt s = some v →
        ((cidrRun d e).1 = true ↔ (d.netLower ≤ v ∧ v ≤ d.netUpper))) ∧
      (∀ e s, Event.lookup e d.field = some (JsonValue.str s) →
        IPv4ToUInt s = none → cidrRun d e = (false, [d.labels.failure])) ∧
      ("16" = "0" → d.netLower = 0 ∧ d.netUpper = 2 ^ 32 - 1 ∧
        (∀ e s v, Event.lookup e d.field = some (JsonValue.str s) →
          IPv4ToUInt s = some v → (cidrRun d e).1 = true)) ∧
      ("16" = "32" → d.netLower = 3232235520 ∧ d.netUpper = 3232235520 ∧
        (∀ e s v, Event.lookup e d.field = some (JsonValue.str s) →
          IPv4ToUInt s = some v →
          ((cidrRun d e).1 = true ↔ v = 3232235520)))) :=
  ⟨by decide, by decide, by decide,
   ipCidr_bounds_and_runtime "src.ip" "+ip_cidr/192.168.0.0/16" "192.168.0.0" "16"
     3232235520 4294901760 (by decide) (by decide) (by decide)⟩

theorem getCompOpParameter_arg (name rawValue : String) (p : CompOpParams)
    (h : getCompOpParameter name rawValue = Except.ok p) :
    p.refValue.isSome ∨ p.value.isSome := by
  unfold getCompOpParameter at h
  split at h
  · split at h
    · cases h
      left
      rfl
    · cases h
      right
      rfl
  · exact Except.noConfusion h

theorem applyStrOp_total (op : Char) (a b : String)
    (hop : op = '=' ∨ op = '!' ∨ op = '>' ∨ op = 'g' ∨ op = '<' ∨ op = 'l') :
    ∃ r, applyStrOp op a b = Except.ok r := by
  rcases hop with h | h | h | h | h | h <;> subst h <;> exact ⟨_, rfl⟩

theorem applyIntOp_total (op : Char) (a b : Int)
    (hop : op = '=' ∨ op = '!' ∨ op = '>' ∨ op = 'g' ∨ op = '<' ∨ op = 'l') :
    ∃ r, applyIntOp op a b = Except.ok r := by
  rcases hop with h | h | h | h | h | h <;> subst h <;> exact ⟨_, rfl⟩

theorem stringComparison_total (key : String) (op : Char) (e : Event)
    (rv v : Option String)
    (hop : op = '=' ∨ op = '!' ∨ op = '>' ∨ op = 'g' ∨ op = '<' ∨ op = 'l')
    (hargs : rv.isSome ∨ v.isSome) :
    ∃ b, stringComparison key op e rv v = Except.ok b := by
  cases hL : Event.lookup e key with
  | none => exact ⟨false, by simp [stringComparison, hL]⟩
  | some fv =>
    cases fv with
    | str a =>
      cases rv with
      | some r =>
        cases hR : Event.lookup e r with
        | none => exact ⟨false, by simp [stringComparison, hL, hR]⟩
        | some rvv =>
          cases rvv with
          | str b =>
            obtain ⟨rr, hrr⟩ := applyStrOp_total op a b hop
            exact ⟨rr, by simp [stringComparison, hL, hR, hrr]⟩
          | null => exact ⟨false, by simp [stringComparison, hL, hR]⟩
          | boolean x => exact ⟨false, by simp [stringComparison, hL, hR]⟩
          | intNum x => exact ⟨false, by simp [stringComparison, hL, hR]⟩
          | floatNum => exact ⟨false, by simp [stringComparison, hL, hR]⟩
          | obj => exact ⟨false, by simp [stringComparison, hL, hR]⟩
          | arr => exact ⟨false, by simp [stringComparison, hL, hR]⟩
      | none =>
        cases v with
        | some b =>
          obtain ⟨rr, hrr⟩ := applyStrOp_total op a b hop
          exact ⟨rr, by simp [stringComparison, hL, hrr]⟩
        | none => simp at hargs
    | null => exact ⟨false, by simp [stringComparison, hL]⟩
    | boolean x => exact ⟨false, by simp [stringComparison, hL]⟩
    | intNum x => exact ⟨false, by simp [stringComparison, hL]⟩
    | floatNum => exact ⟨false, by simp [stringComparison, hL]⟩
    | obj => exact ⟨false, by simp [stringComparison, hL]⟩
    | arr => exact ⟨false, by simp [stringComparison, hL]⟩

theorem intComparison_total (field : String) (op : Char) (e : Event)
    (rv : Option String) (v : Option Int)
    (hop : op = '=' ∨ op = '!' ∨ op = '>' ∨ op = 'g' ∨ op = '<' ∨ op = 'l')
    (hargs : rv.isSome ∨ v.isSome) :
    ∃ b, intComparison field op e rv v = Except.ok b := by
  cases hL : Event.lookup e field with
  | none => exact ⟨false, by simp [intComparison, hL]⟩
  | some fv =>
    by_cases hInt : fv.isInt
    · cases rv with
      | some r =>
        cases hR : Event.lookup e r with
        | none => exact ⟨false, by simp [intComparison, hL, hInt, hR]⟩
        | some rvv =>
          by_cases hIntR : rvv.isInt
          · obtain ⟨rr, hrr⟩ := applyIntOp_total op fv.getInt rvv.getInt hop
            exact ⟨rr, by simp [intComparison, hL, hInt, hR, hIntR, hrr]⟩
          · exact ⟨false, by simp [intComparison, hL, hInt, hR, hIntR]⟩
      | none =>
        cases v with
        | some b =>
          obtain ⟨rr, hrr⟩ := applyIntOp_total op fv.getInt b hop
          exact ⟨rr, by simp [intComparison, hL, hInt, hrr]⟩
        | none => simp at hargs
    · exact ⟨false, by simp [intComparison, hL, hInt]⟩

theorem intLiteralOf_keeps_some (vs : String) (value : Option Int)
    (h : intLiteralOf (some vs) = Except.ok value) : value.isSome := by
  cases hs : stoi? vs with
  | none => simp [intLiteralOf, hs] at h
  | some n =>
    simp [intLiteralOf, hs] at h
    simp [← h]

/-- C10: for every predicate produced by the twelve public string and
integer builders (s_eq, s_ne, s_gt, s_ge, s_lt, s_le, i_eq, i_ne, i_lt,
i_le, i_gt, i_ge), the 'Invalid operator' exception branch — the default
case of the operator-tag switch in opBuilderHelperStringComparison and
opBuilderHelperIntComparison — is unreachable: each builder invokes the
comparison with exactly one of the six recognised tags and with a
literal-or-reference argument, so the comparison always returns a boolean
and never throws. -/
theorem comparison_builders_never_throw_invalid_operator :
    (∀ name raw d, opBuilderHelperStringEq name raw = Except.ok d →
      ∀ e : Event, ∃ b, stringComparison d.key d.op e d.refValue d.value = Except.ok b) ∧
    (∀ name raw d, opBuilderHelperStringNE name raw = Except.ok d →
      ∀ e : Event, ∃ b, stringComparison d.key d.op e d.refValue d.value = Except.ok b) ∧
    (∀ name raw d, opBuilderHelperStringGT name raw = Except.ok d →
      ∀ e : Event, ∃ b, stringComparison d.key d.op e d.refValue d.value = Except.ok b) ∧
    (∀ name raw d, opBuilderHelperStringGE name raw = Except.ok d →
      ∀ e : Event, ∃ b, stringComparison d.key d.op e d.refValue d.value = Except.ok b) ∧
    (∀ name raw d, opBuilderHelperStringLT name raw = Except.ok d →
      ∀ e : Event, ∃ b, stringComparison d.key d.op e d.refValue d.value = Except.ok b) ∧
    (∀ name raw d, opBuilderHelperStringLE name raw = Except.ok d →
      ∀ e : Event, ∃ b, stringComparison d.key d.op e d.refValue d.value = Except.ok b) ∧
    (∀ name raw d, opBuilderHelperIntEqual name raw = Except.ok d →
      ∀ e : Event, ∃ b, intComparison d.field d.op e d.refValue d.value = Except.ok b) ∧
    (∀ name raw d, opBuilderHelperIntNotEqual name raw = Except.ok d →
      ∀ e : Event, ∃ b, intComparison d.field d.op e d.refValue d.value = Except.ok b) ∧
    (∀ name raw d, opBuilderHelperIntLessThan name raw = Except.ok d →
      ∀ e : Event, ∃ b, intComparison d.field d.op e d.refValue d.value = Except.ok b) ∧
    (∀ name raw d, opBuilderHelperIntLessThanEqual name raw = Except.ok d →
      ∀ e : Event, ∃ b, intComparison d.field d.op e d.refValue d.value = Except.ok b) ∧
    (∀ name raw d, opBuilderHelperIntGreaterThan name raw = Except.ok d →
      ∀ e : Event, ∃ b, intComparison d.field d.op e d.refValue d.value = Except.ok b) ∧
    (∀ name raw d, opBuilderHelperIntGreaterThanEqual name raw = Except.ok d →
      ∀ e : Event, ∃ b, intComparison d.field d.op e d.refValue d.value = Except.ok b) := by
  refine ⟨?_, ?_, ?_, ?_, ?_, ?_, ?_, ?_, ?_, ?_, ?_, ?_⟩
  · intro name raw d h e
    cases hg : getCompOpParameter name raw with
    | error m => simp [opBuilderHelperStringEq, hg] at h
    | ok p =>
      simp [opBuilderHelperStringEq, hg] at h
      subst h
      exact stringComparison_total p.field '=' e p.refValue p.value
        (Or.inl rfl) (getCompOpParameter_arg name raw p hg)
  · intro name raw d h e
    cases hg : getCompOpParameter name raw with
    | error m => simp [opBuilderHelperStringNE, hg] at h
    | ok p =>
      simp [opBuilderHelperStringNE, hg] at h
      subst h
      exact stringComparison_total p.field '!' e p.refValue p.value
        (Or.inr (Or.inl rfl)) (getCompOpParameter_arg name raw p hg)
  · intro name raw d h e
    cases hg : getCompOpParameter name raw with
    | error m => simp [opBuilderHelperStringGT, hg] at h
    | ok p =>
      simp [opBuilderHelperStringGT, hg] at h
      subst h
      exact stringComparison_total p.field '>' e p.refValue p.value
        (Or.inr (Or.inr (Or.inl rfl))) (getCompOpParameter_arg name raw p hg)
  · intro name raw d h e
    cases hg : getCompOpParameter name raw with
    | error m => simp [opBuilderHelperStringGE, hg] at h
    | ok p =>
      simp [opBuilderHelperStringGE, hg] at h
      subst h
      exact stringComparison_total p.field 'g' e p.refValue p.value
        (Or.inr (Or.inr (Or.inr (Or.inl rfl)))) (getCompOpParameter_arg name raw p hg)
  · intro name raw d h e
    cases hg : getCompOpParameter name raw with
    | error m => simp [opBuilderHelperStringLT, hg] at h
    | ok p =>
      simp [opBuilderHelperStringLT, hg] at h
      subst h
      exact stringComparison_total p.field '<' e p.refValue p.value
        (Or.inr (Or.inr (Or.inr (Or.inr (Or.inl rfl))))) (getCompOpParameter_arg name raw p hg)
  · intro name raw d h e
    cases hg : getCompOpParameter name raw with
    | error m => simp [opBuilderHelperStringLE, hg] at h
    | ok p =>
      simp [opBuilderHelperStringLE, hg] at h
      subst h
      exact stringComparison_total p.field 'l' e p.refValue p.value
        (Or.inr (Or.inr (Or.inr (Or.inr (Or.inr rfl))))) (getCompOpParameter_arg name raw p hg)
  · intro name raw d h e
    cases hg : getCompOpParameter name raw with
    | error m => simp [opBuilderHelperIntEqual, hg] at h
    | ok p =>
      cases hv : intLiteralOf p.value with
      | error m => simp [opBuilderHelperIntEqual, hg, hv] at h
      | ok value =>
        simp [opBuilderHelperIntEqual, hg, hv] at h
        subst h
        refine intComparison_total p.field '=' e p.refValue value (Or.inl rfl) ?_
        rcases getCompOpParameter_arg name raw p hg with hr | hval
        · exact Or.inl hr
        · cases hpv : p.value with
          | none => rw [hpv] at hval; simp at hval
          | some vs =>
            rw [hpv] at hv
            exact Or.inr (intLiteralOf_keeps_some vs value hv)
  · intro name raw d h e
    cases hg : getCompOpParameter name raw with
    | error m => simp [opBuilderHelperIntNotEqual, hg] at h
    | ok p =>
      cases hv : intLiteralOf p.value with
      | error m => simp [opBuilderHelperIntNotEqual, hg, hv] at h
      | ok value =>
        simp [opBuilderHelperIntNotEqual, hg, hv] at h
        subst h
        refine intComparison_total p.field '!' e p.refValue value (Or.inr (Or.inl rfl)) ?_
        rcases getCompOpParameter_arg name raw p hg with hr | hval
        · exact Or.inl hr
        · cases hpv : p.value with
          | none => rw [hpv] at hval; simp at hval
          | some vs =>
            rw [hpv] at hv
            exact Or.inr (intLiteralOf_keeps_some vs value hv)
  · intro name raw d h e
    cases hg : getCompOpParameter name raw with
    | error m => simp [opBuilderHelperIntLessThan, hg] at h
    | ok p =>
      cases hv : intLiteralOf p.value with
      | error m => simp [opBuilderHelperIntLessThan, hg, hv] at h
      | ok value =>
        simp [opBuilderHelperIntLessThan, hg, hv] at h
        subst h
        refine intComparison_total p.field '<' e p.refValue value (Or.inr (Or.inr (Or.inr (Or.inr (Or.inl rfl))))) ?_
        rcases getCompOpParameter_arg name raw p hg with hr | hval
        · exact Or.inl hr
        · cases hpv : p.value with
          | none => rw [hpv] at hval; simp at hval
          | some vs =>
            rw [hpv] at hv
            exact Or.inr (intLiteralOf_keeps_some vs value hv)
  · intro name raw d h e
    cases hg : getCompOpParameter name raw with
    | error m => simp [opBuilderHelperIntLessThanEqual, hg] at h
    | ok p =>
      cases hv : intLiteralOf p.value with
      | error m => simp [opBuilderHelperIntLessThanEqual, hg, hv] at h
      | ok value =>
        simp [opBuilderHelperIntLessThanEqual, hg, hv] at h
        subst h
        refine intComparison_total p.field 'l' e p.refValue value (Or.inr (Or.inr (Or.inr (Or.inr (Or.inr rfl))))) ?_
        rcases getCompOpParameter_arg name raw p hg with hr | hval
        · exact Or.inl hr
        · cases hpv : p.value with
          | none => rw [hpv] at hval; simp at hval
          | some vs =>
            rw [hpv] at hv
            exact Or.inr (intLiteralOf_keeps_some vs value hv)
  · intro name raw d h e
    cases hg : getCompOpParameter name raw with
    | error m => simp [opBuilderHelperIntGreaterThan, hg] at h
    | ok p =>
      cases hv : intLiteralOf p.value with
      | error m => simp [opBuilderHelperIntGreaterThan, hg, hv] at h
      | ok value =>
        simp [opBuilderHelperIntGreaterThan, hg, hv] at h
        subst h
        refine intComparison_total p.field '>' e p.refValue value (Or.inr (Or.inr (Or.inl rfl))) ?_
        rcases getCompOpParameter_arg name raw p hg with hr | hval
        · exact Or.inl hr
        · cases hpv : p.value with
          | none => rw [hpv] at hval; simp at hval
          | some vs =>
            rw [hpv] at hv
            exact Or.inr (intLiteralOf_keeps_some vs value hv)
  · intro name raw d h e
    cases hg : getCompOpParameter name raw with
    | error m => simp [opBuilderHelperIntGreaterThanEqual, hg] at h
    | ok p =>
      cases hv : intLiteralOf p.value with
      | error m => simp [opBuilderHelperIntGreaterThanEqual, hg, hv] at h
      | ok value =>
        simp [opBuilderHelperIntGreaterThanEqual, hg, hv] at h
        subst h
        refine intComparison_total p.field 'g' e p.refValue value (Or.inr (Or.inr (Or.inr (Or.inl rfl)))) ?_
        rcases getCompOpParameter_arg name raw p hg with hr | hval
        · exact Or.inl hr
        · cases hpv : p.value with
          | none => rw [hpv] at hval; simp at hval
          | some vs =>
            rw [hpv] at hv
            exact Or.inr (intLiteralOf_keeps_some vs value hv)

/-- C10 witness: the s_eq predicate compiled from f: +s_eq/x evaluated on
an event where f holds "x". -/
theorem comparison_builders_witness :
    ∃ b, stringComparison "/f" '=' [("/f", JsonValue.str "x")] none (some "x") =
      Except.ok b :=
  comparison_builders_never_throw_invalid_operator.1 "f" "+s_eq/x"
    ⟨"/f", '=', none, some "x", mkLabels "f" "+s_eq/x"⟩ rfl
    [("/f", JsonValue.str "x")]

/-- C8 witness: an r_not_match predicate (with a never-matching automaton)
on an event whose email field holds a string. -/
theorem regexNotMatch_semantics_witness :
    ((regexNotMatchRun ⟨"/email", "@", mkLabels "email" "+r_not_match/@"⟩
        (fun _ _ => false) [("/email", JsonValue.str "xy")]).1 = true ↔
      ∃ s, Event.lookup [("/email", JsonValue.str "xy")] "/email" =
        some (JsonValue.str s) ∧
        (fun (_ _ : String) => false) "@" s = false) ∧
    ((∀ s, Event.lookup [("/email", JsonValue.str "xy")] "/email" ≠
        some (JsonValue.str s)) →
      regexNotMatchRun ⟨"/email", "@", mkLabels "email" "+r_not_match/@"⟩
        (fun _ _ => false) [("/email", JsonValue.str "xy")] =
        (false, [(mkLabels "email" "+r_not_match/@").failure])) :=
  regexNotMatch_semantics ⟨"/email", "@", mkLabels "email" "+r_not_match/@"⟩
    (fun _ _ => false) [("/email", JsonValue.str "xy")]
